import Mathlib

/-!
Shallow embedding of the `llvm_trace` PANDA plugin
(src/qemu/panda_plugins/llvm_trace/llvm_trace.cpp).

The plugin maintains a dynamic value buffer (`DynValBuffer`, declared in
panda_memlog.h / implemented in panda_memlog.c, which is not part of this
source tree), a binary value log (`memlog`, the file llvm-memlog.log) and a
text ledger (`funclog`, the file llvm-functions.log).  The translation-block
callbacks `before_block_exec`, `after_block_exec` and `cb_cpu_restore_state`
orchestrate flushing the buffer into the value log; the user-mode syscall
helpers `user_open`, `user_creat`, `user_read`, `user_write` maintain the
taint source/sink descriptors `infd`/`outfd` and emit taint lines to the
ledger.

Modelling conventions:
  * bytes are `Nat` (each < 256 in the encodings we produce);
  * `memlog` is the sequence of bytes written so far to the value log;
  * `funclog` is the list of lines written so far to the ledger
    (each C `fprintf` that ends in a newline appends one list element,
    without the trailing newline character);
  * file descriptors and syscall return values (`abi_long`, `int`) are `Int`;
  * guest buffer addresses (`uintptr_t`) are `Nat`;
  * `closed` records that `uninit_plugin` has closed the output streams;
    a write to a closed stream is modelled as a no-op, so a theorem stating
    that teardown data reaches `memlog` certifies the flush happened before
    the close;
  * the counters `flushesBefore` / `flushesAfter` / `flushesFault` count the
    `fwrite`-to-`memlog` calls executed inside `before_block_exec`,
    `after_block_exec` and `cb_cpu_restore_state` respectively (the last has
    no such call in the source, so no operation increments `flushesFault`).
-/

/-- Modelled from the spec: the event entry kinds of the value log
(`DynValEntryType` in panda_memlog.h, not in src/): Address, Value,
BranchTarget, ExceptionMarker. -/
inductive DynValEntryType where
  | address : DynValEntryType
  | value : DynValEntryType
  | branchTarget : DynValEntryType
  | exceptionMarker : DynValEntryType
deriving DecidableEq

/-- Modelled from the spec: one record of the value log (`DynValEntry` in
panda_memlog.h, not in src/): an entry kind, an operation kind and a
pointer-sized payload. -/
structure LoggedEvent where
  entrytype : DynValEntryType
  op : Nat
  payload : Nat
deriving DecidableEq

/-- Numeric code of an entry kind, used by the fixed-size encoding. -/
def entryCode : DynValEntryType → Nat
  | DynValEntryType.address => 0
  | DynValEntryType.value => 1
  | DynValEntryType.branchTarget => 2
  | DynValEntryType.exceptionMarker => 3

/-- Little-endian bytes of a pointer-sized (8-byte) word. -/
def encodeWord (w : Nat) : List Nat :=
  (List.range 8).map (fun i => w / 2 ^ (8 * i) % 256)

/-- Modelled from the spec: the fixed-size binary encoding of one logged
event (entry kind, operation kind, payload), self-describing and of
constant width. The exact layout lives in panda_memlog.h (not in src/);
the claims only depend on it being a fixed-width verbatim encoding. -/
def encodeEvent (e : LoggedEvent) : List Nat :=
  [entryCode e.entrytype, e.op % 256] ++ encodeWord e.payload

/-- Width in bytes of one encoded event record. -/
def RECORD_WIDTH : Nat := 10

/-- Concatenation of the encodings of a list of events, in call order. -/
def encodeEvents : List LoggedEvent → List Nat
  | [] => []
  | e :: rest => encodeEvent e ++ encodeEvents rest

/-- Modelled from the spec: the dynamic value buffer (panda_memlog.h, not in
src/) — a fixed-capacity append buffer.  `contents` models the live bytes
`start[0 .. cur_size)`; `max_size` is the fixed capacity; `fatal` records
that an append would have overflowed the capacity (a fatal condition per the
spec, modelled as a sticky flag with the buffer left unchanged). -/
structure DynValBuffer where
  max_size : Nat
  contents : List Nat
  fatal : Bool
deriving DecidableEq

/-- The buffer cursor: number of live bytes from the buffer base. -/
def DynValBuffer.cur_size (b : DynValBuffer) : Nat :=
  b.contents.length

/-- Modelled from the spec: `clear_dynval_buffer` (panda_memlog.c, not in
src/) resets the cursor to 0 without deallocating. -/
def clear_dynval_buffer (b : DynValBuffer) : DynValBuffer :=
  { b with contents := [] }

/-- Modelled from the spec: `write_dynval_buffer` (panda_memlog.c, not in
src/) appends one fixed-size encoded event when it fits the capacity;
overflow is a fatal condition. -/
def write_dynval_buffer (b : DynValBuffer) (e : LoggedEvent) : DynValBuffer :=
  if b.cur_size + RECORD_WIDTH ≤ b.max_size then
    { b with contents := b.contents ++ encodeEvent e }
  else
    { b with fatal := true }

/-- The zero-initialized exception sentinel event (`memset` to 0 with
entrytype set to the exception marker), modelled from the spec. -/
def exceptionEntry : LoggedEvent :=
  { entrytype := DynValEntryType.exceptionMarker, op := 0, payload := 0 }

/-- Modelled from the spec: `log_exception` (panda_memlog.c, not in src/) —
the Exception/Fault Recorder "emits a distinguished sentinel event when
control is diverted by a fault mid-unit" by appending an ExceptionMarker
record to the dynamic value buffer. -/
def log_exception (b : DynValBuffer) : DynValBuffer :=
  write_dynval_buffer b exceptionEntry

/-- The whole observable state of the plugin: the dynamic value buffer, the
two output streams, the taint descriptors and the flush counters. -/
structure TraceState where
  dynval_buffer : DynValBuffer
  memlog : List Nat
  funclog : List String
  infd : Int
  outfd : Int
  closed : Bool
  flushesBefore : Nat
  flushesAfter : Nat
  flushesFault : Nat
deriving DecidableEq

/-- Model of `fwrite(ptr, cur_size, 1, memlog)`: append bytes to the value log
(a no-op once the streams are closed). -/
def fwrite_memlog (bytes : List Nat) (s : TraceState) : TraceState :=
  if s.closed then s else { s with memlog := s.memlog ++ bytes }

/-- Model of `fprintf(funclog, ...)` for one newline-terminated line: append one line
to the ledger (a no-op once the streams are closed). -/
def fprintf_funclog (line : String) (s : TraceState) : TraceState :=
  if s.closed then s else { s with funclog := s.funclog ++ [line] }

/-- Entry point `log_dynval`: the fast encoder entry point linked into generated code;
appends one encoded event to the dynamic value buffer. -/
def log_dynval (e : LoggedEvent) (s : TraceState) : TraceState :=
  { s with dynval_buffer := write_dynval_buffer s.dynval_buffer e }

/-- Callback `before_block_exec` (llvm_trace.cpp:126-135): print the unit's name to
the ledger; if the buffer was not flushed before, flush it now; then clear
the buffer. -/
def before_block_exec (name : String) (s : TraceState) : TraceState :=
  let s1 := fprintf_funclog name s
  let s2 :=
    if s1.dynval_buffer.cur_size > 0 then
      { fwrite_memlog s1.dynval_buffer.contents s1 with
        flushesBefore := s1.flushesBefore + 1 }
    else s1
  { s2 with dynval_buffer := clear_dynval_buffer s2.dynval_buffer }

/-- Callback `after_block_exec` (llvm_trace.cpp:137-145): flush the buffer (its
`cur_size` bytes from the base) to the value log, then clear it. -/
def after_block_exec (s : TraceState) : TraceState :=
  let s1 :=
    { fwrite_memlog s.dynval_buffer.contents s with
      flushesAfter := s.flushesAfter + 1 }
  { s1 with dynval_buffer := clear_dynval_buffer s1.dynval_buffer }

/-- Callback `cb_cpu_restore_state` (llvm_trace.cpp:147-152): on a fault, append the
exception sentinel to the buffer.  The source performs no `fwrite` and no
clear here. -/
def cb_cpu_restore_state (s : TraceState) : TraceState :=
  { s with dynval_buffer := log_exception s.dynval_buffer }

/-- Teardown `uninit_plugin` (llvm_trace.cpp:283-314): if the buffer was not flushed
before, flush it now; then close the output streams. -/
def uninit_plugin (s : TraceState) : TraceState :=
  let s1 :=
    if s.dynval_buffer.cur_size > 0 then
      fwrite_memlog s.dynval_buffer.contents s
    else s
  { s1 with closed := true }

/-- Host `open(2)` flag O_RDONLY. -/
def O_RDONLY : Nat := 0
/-- Host `open(2)` flag O_WRONLY. -/
def O_WRONLY : Nat := 1
/-- Host `open(2)` flag O_RDWR. -/
def O_RDWR : Nat := 2

/-- True iff `pat` occurs as a contiguous substring at some position of `cs`. -/
def hasSubstrAux (pat : List Char) : List Char → Bool
  | [] => pat.isEmpty
  | c :: rest => List.isPrefixOf pat (c :: rest) || hasSubstrAux pat rest

/-- True iff `pat` occurs as a contiguous substring of `s` (C `strstr` returning
non-null). -/
def hasSubstr (s pat : String) : Bool :=
  hasSubstrAux pat.toList s.toList

/-- True iff `pre` is a prefix of `s` (C `strncmp(s, pre, strlen(pre)) == 0`). -/
def hasPrefixStr (s pre : String) : Bool :=
  List.isPrefixOf pre.toList s.toList

/-- The exclusion test of `user_open` (llvm_trace.cpp:173-179): paths under
/etc, /lib, /proc, /dev, /usr and paths mentioning openssl.cnf or xpdfrc are
not interesting. -/
def excluded (file : String) : Bool :=
  hasPrefixStr file "/etc" || hasPrefixStr file "/lib" || hasPrefixStr file "/proc"
    || hasPrefixStr file "/dev" || hasPrefixStr file "/usr"
    || hasSubstr file "openssl.cnf" || hasSubstr file "xpdfrc"

/-- Syscall helper `user_open` (llvm_trace.cpp:168-192): on a successful open of a
non-excluded path, designate the descriptor as taint source when
`(flags & (O_RDONLY | O_WRONLY)) == O_RDONLY`, and as taint sink when
`flags & O_WRONLY` is non-zero.  `file` stands for `path((const char*)p)`
and `flags` for the host bitmask produced by `target_to_host_bitmask`. -/
def user_open (ret : Int) (file : String) (flags : Nat) (s : TraceState) :
    TraceState :=
  if ret > 0 then
    if excluded file then s
    else
      let s1 :=
        if flags &&& (O_RDONLY ||| O_WRONLY) = O_RDONLY then
          { s with infd := ret }
        else s
      if flags &&& O_WRONLY ≠ 0 then { s1 with outfd := ret } else s1
  else s

/-- Syscall helper `user_creat` (llvm_trace.cpp:194-201): on any successful creat, the
descriptor becomes the taint sink — the source performs no exclusion
check here. -/
def user_creat (ret : Int) (file : String) (s : TraceState) : TraceState :=
  if ret > 0 then { s with outfd := ret } else s

/-- The taint side-channel ledger line
`taint,<dir>,<address>,<length>` with decimal integers
(llvm_trace.cpp:206,216). -/
def taint_line (dir : String) (p : Nat) (ret : Int) : String :=
  "taint," ++ dir ++ "," ++ toString p ++ "," ++ toString ret

/-- Syscall helper `user_read` (llvm_trace.cpp:203-211): when a read syscall returns
`ret > 0` on the designated source descriptor, emit the taint read line to
the ledger. -/
def user_read (ret fd : Int) (p : Nat) (s : TraceState) : TraceState :=
  if ret > 0 ∧ fd = s.infd then fprintf_funclog (taint_line "read" p ret) s
  else s

/-- Syscall helper `user_write` (llvm_trace.cpp:213-221): when a write syscall returns
`ret > 0` on the designated sink descriptor, emit the taint write line to
the ledger. -/
def user_write (ret fd : Int) (p : Nat) (s : TraceState) : TraceState :=
  if ret > 0 ∧ fd = s.outfd then fprintf_funclog (taint_line "write" p ret) s
  else s

/-- The state right after `init_plugin`: empty buffer of the configured
capacity, empty logs, open streams, no designated descriptors
(`infd = outfd = -1`). -/
def initState (cap : Nat) : TraceState :=
  { dynval_buffer := { max_size := cap, contents := [], fatal := false }
  , memlog := []
  , funclog := []
  , infd := -1
  , outfd := -1
  , closed := false
  , flushesBefore := 0
  , flushesAfter := 0
  , flushesFault := 0 }

/-- The lifecycle signals delivered by the host execution engine to the
translation-block callbacks, plus the encoder calls made by instrumented
code while a unit runs. -/
inductive Signal where
  | beforeBlock : String → Signal
  | record : LoggedEvent → Signal
  | afterBlock : Signal
  | fault : Signal

/-- Dispatch one signal to the callback the plugin registers for it. -/
def stepSignal (s : TraceState) (sig : Signal) : TraceState :=
  match sig with
  | Signal.beforeBlock n => before_block_exec n s
  | Signal.record e => log_dynval e s
  | Signal.afterBlock => after_block_exec s
  | Signal.fault => cb_cpu_restore_state s

/-- Run a sequence of signals from a state. -/
def run (sigs : List Signal) (s : TraceState) : TraceState :=
  sigs.foldl stepSignal s

/-- The unit names of the before-unit signals of a run, in order. -/
def beforeNames : List Signal → List String
  | [] => []
  | Signal.beforeBlock n :: rest => n :: beforeNames rest
  | _ :: rest => beforeNames rest

/-- Number of before-unit signals in a run. -/
def countBefore (sigs : List Signal) : Nat :=
  (beforeNames sigs).length

/-- Number of after-unit (normal completion) signals in a run. -/
def countAfter : List Signal → Nat
  | [] => 0
  | Signal.afterBlock :: rest => countAfter rest + 1
  | _ :: rest => countAfter rest

/-- Record a list of events through the encoder entry point, in order. -/
def recordEvents (es : List LoggedEvent) (s : TraceState) : TraceState :=
  es.foldl (fun t e => log_dynval e t) s

/-! ### Helper lemmas -/

theorem encodeEvent_length (e : LoggedEvent) :
    (encodeEvent e).length = RECORD_WIDTH := by
  simp [encodeEvent, encodeWord, RECORD_WIDTH]

theorem write_dynval_buffer_fits (b : DynValBuffer) (e : LoggedEvent)
    (h : b.cur_size + RECORD_WIDTH ≤ b.max_size) :
    write_dynval_buffer b e = { b with contents := b.contents ++ encodeEvent e } := by
  simp [write_dynval_buffer, h]

theorem recordEvents_cons (e : LoggedEvent) (rest : List LoggedEvent)
    (s : TraceState) :
    recordEvents (e :: rest) s = recordEvents rest (log_dynval e s) := rfl

theorem recordEvents_append (es : List LoggedEvent) : ∀ (s : TraceState),
    s.dynval_buffer.cur_size + RECORD_WIDTH * es.length ≤ s.dynval_buffer.max_size →
    recordEvents es s
      = { s with dynval_buffer :=
            { s.dynval_buffer with
              contents := s.dynval_buffer.contents ++ encodeEvents es } } := by
  induction es with
  | nil =>
    intro s h
    simp [recordEvents, encodeEvents]
  | cons e rest ih =>
    intro s h
    have hfit : s.dynval_buffer.cur_size + RECORD_WIDTH ≤ s.dynval_buffer.max_size := by
      simp only [RECORD_WIDTH, List.length_cons] at h ⊢
      omega
    rw [recordEvents_cons, log_dynval, write_dynval_buffer_fits _ _ hfit]
    rw [ih _ (by
      simp only [DynValBuffer.cur_size, List.length_append, encodeEvent_length,
        RECORD_WIDTH, List.length_cons] at h ⊢
      simp only [DynValBuffer.cur_size, RECORD_WIDTH] at hfit
      omega)]
    simp [encodeEvents, List.append_assoc]

theorem before_block_exec_parts (n : String) (s : TraceState)
    (h : s.closed = false) :
    (before_block_exec n s).funclog = s.funclog ++ [n]
    ∧ (before_block_exec n s).memlog = s.memlog ++ s.dynval_buffer.contents
    ∧ (before_block_exec n s).dynval_buffer.contents = []
    ∧ (before_block_exec n s).closed = false
    ∧ (before_block_exec n s).flushesAfter = s.flushesAfter
    ∧ (before_block_exec n s).flushesFault = s.flushesFault := by
  by_cases hb : s.dynval_buffer.cur_size > 0
  · simp [before_block_exec, fprintf_funclog, fwrite_memlog,
      clear_dynval_buffer, h, hb]
  · have hnil : s.dynval_buffer.contents = [] := by
      simp only [DynValBuffer.cur_size] at hb
      exact List.eq_nil_of_length_eq_zero (by omega)
    simp [before_block_exec, fprintf_funclog, fwrite_memlog,
      clear_dynval_buffer, h, hb, hnil]

theorem after_block_exec_parts (s : TraceState) (h : s.closed = false) :
    (after_block_exec s).funclog = s.funclog
    ∧ (after_block_exec s).memlog = s.memlog ++ s.dynval_buffer.contents
    ∧ (after_block_exec s).dynval_buffer.contents = []
    ∧ (after_block_exec s).closed = false
    ∧ (after_block_exec s).flushesAfter = s.flushesAfter + 1
    ∧ (after_block_exec s).flushesFault = s.flushesFault := by
  simp [after_block_exec, fwrite_memlog, clear_dynval_buffer, h]

theorem stepSignal_parts (s : TraceState) (sig : Signal) (h : s.closed = false) :
    (stepSignal s sig).funclog = s.funclog ++ beforeNames [sig]
    ∧ (stepSignal s sig).flushesAfter = s.flushesAfter + countAfter [sig]
    ∧ (stepSignal s sig).flushesFault = s.flushesFault
    ∧ (stepSignal s sig).closed = false := by
  cases sig with
  | beforeBlock n =>
    obtain ⟨p1, _, _, p4, p5, p6⟩ := before_block_exec_parts n s h
    exact ⟨by simpa [stepSignal, beforeNames] using p1,
      by simpa [stepSignal, countAfter] using p5,
      by simpa [stepSignal] using p6,
      by simpa [stepSignal] using p4⟩
  | record e =>
    exact ⟨by simp [stepSignal, log_dynval, beforeNames],
      by simp [stepSignal, log_dynval, countAfter],
      rfl, by simpa [stepSignal, log_dynval] using h⟩
  | afterBlock =>
    obtain ⟨p1, _, _, p4, p5, p6⟩ := after_block_exec_parts s h
    exact ⟨by simpa [stepSignal, beforeNames] using p1,
      by simpa [stepSignal, countAfter] using p5,
      by simpa [stepSignal] using p6,
      by simpa [stepSignal] using p4⟩
  | fault =>
    exact ⟨by simp [stepSignal, cb_cpu_restore_state, beforeNames],
      by simp [stepSignal, cb_cpu_restore_state, countAfter],
      rfl, by simpa [stepSignal, cb_cpu_restore_state] using h⟩

theorem beforeNames_cons (sig : Signal) (rest : List Signal) :
    beforeNames (sig :: rest) = beforeNames [sig] ++ beforeNames rest := by
  cases sig <;> simp [beforeNames]

theorem countAfter_cons (sig : Signal) (rest : List Signal) :
    countAfter (sig :: rest) = countAfter [sig] + countAfter rest := by
  cases sig <;> simp [countAfter] <;> omega

theorem run_ledger_counts (sigs : List Signal) : ∀ (s : TraceState),
    s.closed = false →
    (run sigs s).funclog = s.funclog ++ beforeNames sigs
    ∧ (run sigs s).flushesAfter = s.flushesAfter + countAfter sigs
    ∧ (run sigs s).flushesFault = s.flushesFault
    ∧ (run sigs s).closed = false := by
  induction sigs with
  | nil =>
    intro s h
    simp [run, beforeNames, countAfter, h]
  | cons sig rest ih =>
    intro s h
    have hstep : run (sig :: rest) s = run rest (stepSignal s sig) := rfl
    obtain ⟨p1, p2, p3, p4⟩ := stepSignal_parts s sig h
    obtain ⟨q1, q2, q3, q4⟩ := ih (stepSignal s sig) p4
    refine ⟨?_, ?_, ?_, by rw [hstep]; exact q4⟩
    · rw [hstep, q1, p1, beforeNames_cons sig rest, List.append_assoc]
    · rw [hstep, q2, p2, countAfter_cons sig rest]
      omega
    · rw [hstep, q3, p3]

/-! ### Claim theorems -/

/-- C1: when `after_block_exec` fires, exactly `cur_size` bytes from the
buffer base — the exact concatenation of the events recorded during the
unit, in call order — are written verbatim to the value log, and the buffer
cursor is reset to 0. -/
theorem after_block_exec_flushes_unit_events (s : TraceState)
    (es : List LoggedEvent)
    (h0 : s.dynval_buffer.contents = []) (hopen : s.closed = false)
    (hfit : RECORD_WIDTH * es.length ≤ s.dynval_buffer.max_size) :
    (recordEvents es s).dynval_buffer.cur_size = (encodeEvents es).length
    ∧ (after_block_exec (recordEvents es s)).memlog = s.memlog ++ encodeEvents es
    ∧ (after_block_exec (recordEvents es s)).dynval_buffer.cur_size = 0 := by
  have hrec := recordEvents_append es s
    (by simp [DynValBuffer.cur_size, h0, hfit])
  obtain ⟨_, a2, a3, _, _, _⟩ := after_block_exec_parts (recordEvents es s)
    (by rw [hrec]; exact hopen)
  refine ⟨?_, ?_, ?_⟩
  · rw [hrec]
    simp [DynValBuffer.cur_size, h0]
  · rw [a2, hrec]
    simp [h0]
  · simp [DynValBuffer.cur_size, a3]

/-- C1 witness: a unit that records one value event from an empty buffer of
capacity 100. -/
theorem after_block_exec_flushes_unit_events_witness :
    (recordEvents [LoggedEvent.mk DynValEntryType.value 2 300]
        (initState 100)).dynval_buffer.cur_size
      = (encodeEvents [LoggedEvent.mk DynValEntryType.value 2 300]).length
    ∧ (after_block_exec (recordEvents [LoggedEvent.mk DynValEntryType.value 2 300]
        (initState 100))).memlog
      = (initState 100).memlog ++ encodeEvents [LoggedEvent.mk DynValEntryType.value 2 300]
    ∧ (after_block_exec (recordEvents [LoggedEvent.mk DynValEntryType.value 2 300]
        (initState 100))).dynval_buffer.cur_size = 0 :=
  after_block_exec_flushes_unit_events (initState 100)
    [LoggedEvent.mk DynValEntryType.value 2 300] rfl rfl (by decide)

/-- C9: after every `before_block_exec`, the buffer cursor is 0
unconditionally, whether or not the defensive flush fired. -/
theorem before_block_exec_clears_buffer (n : String) (s : TraceState) :
    (before_block_exec n s).dynval_buffer.cur_size = 0 := by
  simp [before_block_exec, clear_dynval_buffer, DynValBuffer.cur_size]

/-- C3: on `before_block_exec`, a non-empty buffer is flushed to the value
log and the buffer is reset; the unit's name is recorded in the ledger; an
empty buffer contributes nothing to the value log. -/
theorem before_block_exec_defensive_flush (n : String) (s : TraceState)
    (hopen : s.closed = false) :
    (before_block_exec n s).funclog = s.funclog ++ [n]
    ∧ (before_block_exec n s).memlog = s.memlog ++ s.dynval_buffer.contents
    ∧ (before_block_exec n s).dynval_buffer.cur_size = 0
    ∧ (s.dynval_buffer.cur_size = 0 → (before_block_exec n s).memlog = s.memlog) := by
  obtain ⟨p1, p2, p3, _, _, _⟩ := before_block_exec_parts n s hopen
  refine ⟨p1, p2, by simp [DynValBuffer.cur_size, p3], ?_⟩
  intro hz
  have hnil : s.dynval_buffer.contents = [] := by
    simp only [DynValBuffer.cur_size] at hz
    exact List.length_eq_zero.mp hz
  rw [p2, hnil, List.append_nil]

/-- C3 witness: a before-unit signal on the freshly initialized state. -/
theorem before_block_exec_defensive_flush_witness :
    (before_block_exec "A" (initState 100)).funclog
      = (initState 100).funclog ++ [ "A" ]
    ∧ (before_block_exec "A" (initState 100)).memlog
      = (initState 100).memlog ++ (initState 100).dynval_buffer.contents
    ∧ (before_block_exec "A" (initState 100)).dynval_buffer.cur_size = 0
    ∧ ((initState 100).dynval_buffer.cur_size = 0 →
        (before_block_exec "A" (initState 100)).memlog = (initState 100).memlog) :=
  before_block_exec_defensive_flush "A" (initState 100) rfl

/-- C2 counterexample: after one recorded event, the fault callback appends
the exception sentinel but performs no flush and no reset — the value log
stays empty and the buffer cursor is non-zero, contrary to the claim that
the fault signal flushes and resets the buffer. -/
theorem cb_cpu_restore_state_no_flush_cex :
    (cb_cpu_restore_state (log_dynval (LoggedEvent.mk DynValEntryType.value 0 7)
        (initState 100))).memlog = []
    ∧ (cb_cpu_restore_state (log_dynval (LoggedEvent.mk DynValEntryType.value 0 7)
        (initState 100))).dynval_buffer.cur_size ≠ 0 := by
  exact ⟨rfl, by decide⟩

/-- C2 amended: the fault callback appends one ExceptionMarker to the buffer
(no flush, no reset at the fault signal); the buffer, holding the unit's N
events followed by the marker, is flushed and reset at the next before-unit
signal, so the value log for the faulting unit still receives exactly those
N events followed by one ExceptionMarker. -/
theorem fault_marker_flushed_at_next_boundary (s : TraceState)
    (es : List LoggedEvent) (n : String)
    (hb : s.dynval_buffer.contents = encodeEvents es)
    (hopen : s.closed = false)
    (hfit : s.dynval_buffer.cur_size + RECORD_WIDTH ≤ s.dynval_buffer.max_size) :
    (cb_cpu_restore_state s).dynval_buffer.contents
      = encodeEvents es ++ encodeEvent exceptionEntry
    ∧ (cb_cpu_restore_state s).memlog = s.memlog
    ∧ (before_block_exec n (cb_cpu_restore_state s)).memlog
      = s.memlog ++ (encodeEvents es ++ encodeEvent exceptionEntry)
    ∧ (before_block_exec n (cb_cpu_restore_state s)).dynval_buffer.cur_size = 0 := by
  have hcb : cb_cpu_restore_state s
      = { s with dynval_buffer :=
            { s.dynval_buffer with
              contents := s.dynval_buffer.contents ++ encodeEvent exceptionEntry } } := by
    rw [cb_cpu_restore_state, log_exception, write_dynval_buffer_fits _ _ hfit]
  obtain ⟨_, p2, p3, _, _, _⟩ := before_block_exec_parts n (cb_cpu_restore_state s)
    (by rw [hcb]; exact hopen)
  refine ⟨by rw [hcb]; simp [hb], by rw [hcb], ?_, by simp [DynValBuffer.cur_size, p3]⟩
  rw [p2, hcb]
  simp [hb]

/-- C2 amended witness: one recorded event, then a fault, then the next
before-unit signal, from the freshly initialized state. -/
theorem fault_marker_flushed_at_next_boundary_witness :
    (cb_cpu_restore_state (log_dynval (LoggedEvent.mk DynValEntryType.value 0 7)
        (initState 100))).dynval_buffer.contents
      = encodeEvents [LoggedEvent.mk DynValEntryType.value 0 7]
          ++ encodeEvent exceptionEntry
    ∧ (cb_cpu_restore_state (log_dynval (LoggedEvent.mk DynValEntryType.value 0 7)
        (initState 100))).memlog
      = (log_dynval (LoggedEvent.mk DynValEntryType.value 0 7) (initState 100)).memlog
    ∧ (before_block_exec "B" (cb_cpu_restore_state
        (log_dynval (LoggedEvent.mk DynValEntryType.value 0 7) (initState 100)))).memlog
      = (log_dynval (LoggedEvent.mk DynValEntryType.value 0 7) (initState 100)).memlog
          ++ (encodeEvents [LoggedEvent.mk DynValEntryType.value 0 7]
              ++ encodeEvent exceptionEntry)
    ∧ (before_block_exec "B" (cb_cpu_restore_state
        (log_dynval (LoggedEvent.mk DynValEntryType.value 0 7)
          (initState 100)))).dynval_buffer.cur_size = 0 :=
  fault_marker_flushed_at_next_boundary
    (log_dynval (LoggedEvent.mk DynValEntryType.value 0 7) (initState 100))
    [LoggedEvent.mk DynValEntryType.value 0 7] "B" (by decide) rfl (by decide)

/-- C5: over any run of lifecycle signals from startup, the ledger stream is
exactly the names of the executed units, one line per unit-execution event,
in execution order — the line is appended at the before-unit signal itself
(the equality holds after every prefix of the run), never deferred. -/
theorem ledger_line_per_execution (cap : Nat) (sigs : List Signal) :
    (run sigs (initState cap)).funclog = beforeNames sigs := by
  obtain ⟨h1, _, _, _⟩ := run_ledger_counts sigs (initState cap) rfl
  simpa [initState] using h1

/-- C4 counterexample: in the run "unit A begins, then a fault diverts
control", the ledger holds one entry but no flush was triggered by a normal
completion or by the fault — the claimed equality fails. -/
theorem ledger_flush_count_mismatch_cex :
    (run [Signal.beforeBlock "A", Signal.fault] (initState 100)).funclog.length = 1
    ∧ (run [Signal.beforeBlock "A", Signal.fault] (initState 100)).flushesAfter
        + (run [Signal.beforeBlock "A", Signal.fault] (initState 100)).flushesFault = 0
    ∧ (run [Signal.beforeBlock "A", Signal.fault] (initState 100)).funclog.length
        ≠ (run [Signal.beforeBlock "A", Signal.fault] (initState 100)).flushesAfter
          + (run [Signal.beforeBlock "A", Signal.fault] (initState 100)).flushesFault := by
  exact ⟨rfl, rfl, by decide⟩

/-- C4 amended: over any run, the ledger entry count equals the number of
before-unit signals; each normal completion triggers exactly one flush
(`flushesAfter` equals the number of after-unit signals); fault diversion
triggers no flush at all.  The original equality therefore holds exactly
when every before-unit signal is matched by a normal completion. -/
theorem ledger_and_flush_counts (cap : Nat) (sigs : List Signal) :
    (run sigs (initState cap)).funclog.length = countBefore sigs
    ∧ (run sigs (initState cap)).flushesAfter = countAfter sigs
    ∧ (run sigs (initState cap)).flushesFault = 0 := by
  obtain ⟨h1, h2, h3, _⟩ := run_ledger_counts sigs (initState cap) rfl
  refine ⟨?_, ?_, ?_⟩
  · rw [h1]
    simp [initState, countBefore]
  · rw [h2]
    simp [initState]
  · rw [h3]
    rfl

/-- C6: a taint line is emitted to the ledger iff a read (resp. write)
syscall returns a positive value on the designated source (resp. sink)
descriptor, and it has the literal form `taint,read,<address>,<length>`
(resp. `taint,write,...`) with decimal integers; a read of 128 bytes at
address 0x7fff0000 yields `taint,read,2147418112,128`. -/
theorem taint_syscall_lines (s : TraceState) (ret fd : Int) (p : Nat)
    (hopen : s.closed = false) :
    (user_read ret fd p s).funclog
      = s.funclog ++ (if ret > 0 ∧ fd = s.infd then [taint_line "read" p ret] else [])
    ∧ (user_write ret fd p s).funclog
      = s.funclog ++ (if ret > 0 ∧ fd = s.outfd then [taint_line "write" p ret] else [])
    ∧ taint_line "read" 2147418112 128 = "taint,read,2147418112,128" := by
  refine ⟨?_, ?_, rfl⟩
  · by_cases h : ret > 0 ∧ fd = s.infd <;>
      simp [user_read, fprintf_funclog, hopen, h]
  · by_cases h : ret > 0 ∧ fd = s.outfd <;>
      simp [user_write, fprintf_funclog, hopen, h]

/-- C6 witness: a read returning 128 on the designated source descriptor 5
at buffer address 0x7fff0000. -/
theorem taint_syscall_lines_witness :
    (user_read 128 5 2147418112 { initState 100 with infd := 5 }).funclog
      = ({ initState 100 with infd := 5 } : TraceState).funclog
          ++ (if (128 : Int) > 0
                ∧ (5 : Int) = ({ initState 100 with infd := 5 } : TraceState).infd
              then [taint_line "read" 2147418112 128] else [])
    ∧ (user_write 128 5 2147418112 { initState 100 with infd := 5 }).funclog
      = ({ initState 100 with infd := 5 } : TraceState).funclog
          ++ (if (128 : Int) > 0
                ∧ (5 : Int) = ({ initState 100 with infd := 5 } : TraceState).outfd
              then [taint_line "write" 2147418112 128] else [])
    ∧ taint_line "read" 2147418112 128 = "taint,read,2147418112,128" :=
  taint_syscall_lines { initState 100 with infd := 5 } 128 5 2147418112 rfl

/-- C7 counterexample: `user_creat` designates the sink descriptor on any
successful creat, with no exclusion check — a creat of the excluded path
/etc/passwd still becomes the taint sink, contrary to the claim that every
file-open operation classifies the path first. -/
theorem user_creat_skips_exclusion_cex :
    excluded "/etc/passwd" = true
    ∧ (initState 100).outfd ≠ 5
    ∧ (user_creat 5 "/etc/passwd" (initState 100)).outfd = 5 := by
  exact ⟨by decide, by decide, rfl⟩

/-- C7 amended: for open/openat the exclusion list gates designation — on a
successful open of a non-excluded path the descriptor becomes the taint
source when `(flags & (O_RDONLY|O_WRONLY)) == O_RDONLY` and the taint sink
when `flags & O_WRONLY` is set, each a single last-write-wins cell, and an
excluded path changes nothing; `user_creat`, however, designates the sink on
any successful return without consulting the exclusion list. -/
theorem open_designation_rules (s : TraceState) (ret : Int) (file : String)
    (flags : Nat) (h : ret > 0) :
    (excluded file = true → user_open ret file flags s = s)
    ∧ (excluded file = false →
        (user_open ret file flags s).infd
          = (if flags &&& (O_RDONLY ||| O_WRONLY) = O_RDONLY then ret else s.infd)
        ∧ (user_open ret file flags s).outfd
          = (if flags &&& O_WRONLY ≠ 0 then ret else s.outfd))
    ∧ (user_creat ret file s).outfd = ret
    ∧ (user_creat ret file s).infd = s.infd := by
  refine ⟨?_, ?_, by simp [user_creat, h], by simp [user_creat, h]⟩
  · intro hx
    simp [user_open, h, hx]
  · intro hx
    constructor
    · by_cases hr : flags &&& (O_RDONLY ||| O_WRONLY) = O_RDONLY <;>
        by_cases hw : flags &&& O_WRONLY ≠ 0 <;>
          simp [user_open, h, hx, hr, hw]
    · by_cases hr : flags &&& (O_RDONLY ||| O_WRONLY) = O_RDONLY <;>
        by_cases hw : flags &&& O_WRONLY ≠ 0 <;>
          simp [user_open, h, hx, hr, hw]

/-- C7 witness: a successful read-only open of the non-excluded path
/data/in with descriptor 5. -/
theorem open_designation_rules_witness :
    (excluded "/data/in" = true →
      user_open 5 "/data/in" O_RDONLY (initState 100) = initState 100)
    ∧ (excluded "/data/in" = false →
        (user_open 5 "/data/in" O_RDONLY (initState 100)).infd
          = (if O_RDONLY &&& (O_RDONLY ||| O_WRONLY) = O_RDONLY then 5
             else (initState 100).infd)
        ∧ (user_open 5 "/data/in" O_RDONLY (initState 100)).outfd
          = (if O_RDONLY &&& O_WRONLY ≠ 0 then 5 else (initState 100).outfd))
    ∧ (user_creat 5 "/data/in" (initState 100)).outfd = 5
    ∧ (user_creat 5 "/data/in" (initState 100)).infd = (initState 100).infd :=
  open_designation_rules (initState 100) 5 "/data/in" O_RDONLY (by decide)

/-- C10: a successful open of a non-excluded path with O_RDWR passes the
read test `(flags & (O_RDONLY | O_WRONLY)) == O_RDONLY`, so the descriptor
is designated as the taint source (`infd`) and the sink (`outfd`) is left
unchanged. -/
theorem o_rdwr_designates_infd (s : TraceState) (ret : Int) (file : String)
    (h : ret > 0) (hx : excluded file = false) :
    O_RDWR &&& (O_RDONLY ||| O_WRONLY) = O_RDONLY
    ∧ (user_open ret file O_RDWR s).infd = ret
    ∧ (user_open ret file O_RDWR s).outfd = s.outfd := by
  have h1 : O_RDWR &&& (O_RDONLY ||| O_WRONLY) = O_RDONLY := by decide
  have h2 : ¬(O_RDWR &&& O_WRONLY ≠ 0) := by decide
  refine ⟨h1, ?_, ?_⟩ <;> simp [user_open, h, hx, h1, h2]

/-- C10 witness: a successful O_RDWR open of /data/in with descriptor 5. -/
theorem o_rdwr_designates_infd_witness :
    O_RDWR &&& (O_RDONLY ||| O_WRONLY) = O_RDONLY
    ∧ (user_open 5 "/data/in" O_RDWR (initState 100)).infd = 5
    ∧ (user_open 5 "/data/in" O_RDWR (initState 100)).outfd
      = (initState 100).outfd :=
  o_rdwr_designates_infd (initState 100) 5 "/data/in" (by decide) (by decide)

/-- C8: at teardown, any bytes still buffered are written to the value log
while the streams are still open, and only then are the streams closed — no
buffered event is dropped at shutdown. -/
theorem uninit_flushes_before_close (s : TraceState) (hopen : s.closed = false) :
    (uninit_plugin s).memlog = s.memlog ++ s.dynval_buffer.contents
    ∧ (uninit_plugin s).closed = true := by
  by_cases hb : s.dynval_buffer.cur_size > 0
  · simp [uninit_plugin, fwrite_memlog, hopen, hb]
  · have hnil : s.dynval_buffer.contents = [] := by
      simp only [DynValBuffer.cur_size] at hb
      exact List.length_eq_zero.mp (by omega)
    simp [uninit_plugin, fwrite_memlog, hopen, hb, hnil]

/-- C8 witness: teardown with one still-buffered event. -/
theorem uninit_flushes_before_close_witness :
    (uninit_plugin (log_dynval (LoggedEvent.mk DynValEntryType.address 1 42)
        (initState 100))).memlog
      = (log_dynval (LoggedEvent.mk DynValEntryType.address 1 42)
          (initState 100)).memlog
        ++ (log_dynval (LoggedEvent.mk DynValEntryType.address 1 42)
            (initState 100)).dynval_buffer.contents
    ∧ (uninit_plugin (log_dynval (LoggedEvent.mk DynValEntryType.address 1 42)
        (initState 100))).closed = true :=
  uninit_flushes_before_close
    (log_dynval (LoggedEvent.mk DynValEntryType.address 1 42) (initState 100)) rfl
